import Mathlib

/-!
Verification of the analytics core of stock_analysis.py.

The program's numeric core is:
  - calculate_moving_average(data, window): a Python loop that, for each index
    i in range(len(data)), appends sum(data[:i+1])/(i+1) when i < window and
    sum(data[i-window+1:i+1])/window otherwise;
  - the analysis builder inside analyze_indian_stock (lines 50-74), which
    assembles stock info, price metrics, volume metrics and technical
    indicators from the close-price and volume sequences.

Prices and volumes are modelled as rationals (the real numbers the spec talks
about, kept decidable). Python's int is modelled as Int where the sign can
matter (the window argument). Python slices with non-negative bounds are
take/drop. The only runtime failure reachable inside calculate_moving_average
is the ZeroDivisionError raised when the else-branch divides by window = 0;
the function otherwise performs no validation. Division elsewhere is by i+1,
which is at least 1.
-/

namespace StockAnalysis

/-- The one Python runtime error reachable in calculate_moving_average:
dividing sum(...) by window when window == 0. -/
inductive PyError where
  | zeroDivisionError
deriving DecidableEq, Repr

/-- One iteration of the loop body of calculate_moving_average: the value
appended at index i, or the error raised there. Mirrors lines 10-13 of
stock_analysis.py: if i < window then sum(data[:i+1])/(i+1) else
sum(data[i-window+1:i+1])/window, the latter raising ZeroDivisionError when
window = 0. In the else-branch i >= window, so the slice start
i - window + 1 is a non-negative int. -/
def maEntry (data : List ℚ) (window : ℤ) (i : ℕ) : Except PyError ℚ :=
  if (i : ℤ) < window then
    Except.ok ((data.take (i + 1)).sum / (i + 1 : ℚ))
  else if window = 0 then
    Except.error PyError.zeroDivisionError
  else
    Except.ok (((data.take (i + 1)).drop ((i - window + 1 : ℤ)).toNat).sum / (window : ℚ))

/-- Sequencing of the loop: run the body on each index in order, aborting at
the first raised error (the partially built list is discarded, as a Python
exception discards the local ma list). -/
def mapExcept (f : ℕ → Except PyError ℚ) : List ℕ → Except PyError (List ℚ)
  | [] => Except.ok []
  | i :: is =>
    match f i with
    | Except.error e => Except.error e
    | Except.ok v =>
      match mapExcept f is with
      | Except.error e => Except.error e
      | Except.ok vs => Except.ok (v :: vs)

/-- calculate_moving_average (stock_analysis.py lines 6-14): iterate the loop
body over range(len(data)), collecting the appended values or propagating the
raised error. -/
def calculate_moving_average (data : List ℚ) (window : ℤ) : Except PyError (List ℚ) :=
  mapExcept (maEntry data window) (List.range data.length)

/-- The value the loop body appends at index i when no error is raised
(i.e. when window ≠ 0): the pure content of maEntry. -/
def maValue (data : List ℚ) (window : ℤ) (i : ℕ) : ℚ :=
  if (i : ℤ) < window then
    (data.take (i + 1)).sum / (i + 1 : ℚ)
  else
    ((data.take (i + 1)).drop ((i - window + 1 : ℤ)).toNat).sum / (window : ℚ)

/-- The moving-average list on the error-free path: the list
calculate_moving_average returns whenever window ≠ 0 (see
calculate_moving_average_eq_ok). -/
def movingAverage (data : List ℚ) (window : ℤ) : List ℚ :=
  (List.range data.length).map (maValue data window)

theorem mapExcept_ok (f : ℕ → Except PyError ℚ) (g : ℕ → ℚ) (l : List ℕ)
    (h : ∀ i ∈ l, f i = Except.ok (g i)) :
    mapExcept f l = Except.ok (l.map g) := by
  induction l with
  | nil => rfl
  | cons i is ih =>
    simp only [mapExcept, h i (List.mem_cons_self i is),
      ih fun j hj => h j (List.mem_cons_of_mem i hj), List.map_cons]

theorem maEntry_ok (data : List ℚ) (window : ℤ) (hw : window ≠ 0) (i : ℕ) :
    maEntry data window i = Except.ok (maValue data window i) := by
  unfold maEntry maValue
  by_cases h : (i : ℤ) < window
  · simp [h]
  · simp [h, hw]

/-- On any window other than 0 the function raises nothing and returns the
movingAverage list. -/
theorem calculate_moving_average_eq_ok (data : List ℚ) (window : ℤ) (hw : window ≠ 0) :
    calculate_moving_average data window = Except.ok (movingAverage data window) := by
  unfold calculate_moving_average movingAverage
  exact mapExcept_ok _ _ _ fun i _ => maEntry_ok data window hw i

/-- Arithmetic mean of a list, as the spec writes it: sum divided by length. -/
def listMean (l : List ℚ) : ℚ := l.sum / (l.length : ℚ)

/-- The inclusive index range s[a..b] the spec uses when it writes
s[i-window+1..i] or [0, i]: elements at positions a through b. -/
def sliceIncl (s : List ℚ) (a b : ℕ) : List ℚ := (s.take (b + 1)).drop a

/-- Python max() over a sequence: the running maximum, seeded with the first
element. Python raises on an empty sequence; the analysis only applies this
to non-empty sequences, so the empty case carries a junk value. -/
def pyMax : List ℚ → ℚ
  | [] => 0
  | x :: xs => xs.foldl max x

/-- Python min() over a sequence, analogous to pyMax. -/
def pyMin : List ℚ → ℚ
  | [] => 0
  | x :: xs => xs.foldl min x

/-- Python seq[-1]: the last element. Python raises on an empty sequence; the
analysis only applies this to non-empty sequences. -/
def pyLast (l : List ℚ) : ℚ := l.getLast?.getD 0

structure StockInfo where
  symbol : String
  exchange : String
  tradingDays : ℕ
deriving DecidableEq, Repr

structure PriceMetrics where
  currentPrice : ℚ
  high : ℚ
  low : ℚ
  averagePrice : ℚ
  priceRangePct : ℚ
deriving DecidableEq, Repr

structure VolumeMetrics where
  averageVolume : ℚ
  maxVolume : ℚ
  lastVolume : ℚ
deriving DecidableEq, Repr

structure TechnicalIndicators where
  currentVs50MA : String
  currentVs200MA : String
  ma50Value : ℚ
  ma200Value : ℚ
deriving DecidableEq, Repr

/-- The analysis record assembled in stock_analysis.py lines 50-74. -/
structure Analysis where
  stock_info : StockInfo
  price_metrics : PriceMetrics
  volume_metrics : VolumeMetrics
  technical_indicators : TechnicalIndicators
deriving DecidableEq, Repr

/-- The analysis-building core of analyze_indian_stock (lines 42-74): given
the close-price and volume sequences extracted from the fetched frame, compute
the 50- and 200-day moving averages and assemble the result record. The
windows 50 and 200 are positive, so calculate_moving_average returns
Except.ok (movingAverage ...) here (calculate_moving_average_eq_ok); the
builder uses that error-free value. The comparisons on lines 69-70 are the
source's plain greater-than tests with no separate equality outcome. -/
def analyzeCore (symbol : String) (close_prices volumes : List ℚ) : Analysis :=
  let ma50 := movingAverage close_prices 50
  let ma200 := movingAverage close_prices 200
  { stock_info :=
      { symbol := symbol
        exchange := if String.endsWith symbol (".NS") then ("NSE") else ("BSE")
        tradingDays := close_prices.length }
    price_metrics :=
      { currentPrice := pyLast close_prices
        high := pyMax close_prices
        low := pyMin close_prices
        averagePrice := close_prices.sum / (close_prices.length : ℚ)
        priceRangePct := (pyMax close_prices - pyMin close_prices) / pyMin close_prices * 100 }
    volume_metrics :=
      { averageVolume := volumes.sum / (volumes.length : ℚ)
        maxVolume := pyMax volumes
        lastVolume := pyLast volumes }
    technical_indicators :=
      { currentVs50MA := if pyLast close_prices > pyLast ma50 then ("Above") else ("Below")
        currentVs200MA := if pyLast close_prices > pyLast ma200 then ("Above") else ("Below")
        ma50Value := pyLast ma50
        ma200Value := pyLast ma200 } }

/-- The spec's error vocabulary for SeriesStatistics. -/
inductive SpecError where
  | emptySeries
  | invalidWindow
  | divisionByZero
deriving DecidableEq, Repr

/-- Modelled from the spec: rangePercent(low, high) = (high - low) / low * 100,
failing with DivisionByZero when low == 0. The repository has no such
function; the corresponding code is the inline expression on line 61, compared
against this definition in the C6 theorems. -/
def rangePercentSpec (low high : ℚ) : Except SpecError ℚ :=
  if low = 0 then Except.error SpecError.divisionByZero
  else Except.ok ((high - low) / low * 100)

theorem movingAverage_length (s : List ℚ) (w : ℤ) :
    (movingAverage s w).length = s.length := by
  simp [movingAverage]

theorem movingAverage_getElem? (s : List ℚ) (w : ℤ) (i : ℕ) (h : i < s.length) :
    (movingAverage s w)[i]? = some (maValue s w i) := by
  simp [movingAverage, List.getElem?_map, List.getElem?_range, h]

/-- maValue at a natural-number window, with the int arithmetic of the slice
start discharged. -/
theorem maValue_natCast (s : List ℚ) (w i : ℕ) :
    maValue s (w : ℤ) i =
      if i < w then (s.take (i + 1)).sum / ((i : ℚ) + 1)
      else ((s.take (i + 1)).drop (i + 1 - w)).sum / (w : ℚ) := by
  unfold maValue
  rw [show ((i : ℤ) - (w : ℤ) + 1).toNat = i + 1 - w by omega]
  rw [show (((w : ℤ) : ℚ)) = (w : ℚ) by push_cast; rfl]
  by_cases h : i < w
  · rw [if_pos h, if_pos (by exact_mod_cast h)]
  · rw [if_neg h, if_neg (by exact_mod_cast h)]

/-- The contiguous slice of the input whose values the loop body averages at
index i: the whole prefix up to i in the first branch, the trailing window in
the second. -/
def maSlice (s : List ℚ) (w i : ℕ) : List ℚ :=
  if i < w then s.take (i + 1) else (s.take (i + 1)).drop (i + 1 - w)

theorem maSlice_length (s : List ℚ) (w i : ℕ) (hw : 1 ≤ w) (h : i < s.length) :
    (maSlice s w i).length = min w (i + 1) := by
  unfold maSlice
  by_cases hiw : i < w
  · rw [if_pos hiw, List.length_take]
    omega
  · rw [if_neg hiw, List.length_drop, List.length_take]
    omega

theorem maSlice_ne_nil (s : List ℚ) (w i : ℕ) (hw : 1 ≤ w) (h : i < s.length) :
    maSlice s w i ≠ [] := by
  have hlen := maSlice_length s w i hw h
  intro hnil
  rw [hnil] at hlen
  simp at hlen
  omega

theorem maSlice_subset (s : List ℚ) (w i : ℕ) : ∀ x ∈ maSlice s w i, x ∈ s := by
  intro x hx
  unfold maSlice at hx
  split at hx
  · exact List.take_subset _ _ hx
  · exact List.take_subset _ _ (List.drop_subset _ _ hx)

/-- The appended value is exactly the arithmetic mean of its slice: the code
divides by i+1 in the first branch and by window in the second, and these are
the slice lengths. -/
theorem maValue_eq_listMean (s : List ℚ) (w i : ℕ) (hw : 1 ≤ w) (h : i < s.length) :
    maValue s (w : ℤ) i = listMean (maSlice s w i) := by
  rw [maValue_natCast]
  unfold maSlice listMean
  by_cases hiw : i < w
  · rw [if_pos hiw, if_pos hiw]
    have hlen : (s.take (i + 1)).length = i + 1 := by
      rw [List.length_take]; omega
    rw [hlen]
    push_cast
    rfl
  · rw [if_neg hiw, if_neg hiw]
    have hlen : ((s.take (i + 1)).drop (i + 1 - w)).length = w := by
      rw [List.length_drop, List.length_take]; omega
    rw [hlen]

theorem le_foldl_max (xs : List ℚ) : ∀ a z : ℚ, z ≤ a → z ≤ xs.foldl max a := by
  induction xs with
  | nil => intro a z h; exact h
  | cons x xs ih => intro a z h; exact ih _ _ (le_trans h (le_max_left a x))

theorem le_foldl_max_of_mem (xs : List ℚ) : ∀ a z : ℚ, z ∈ xs → z ≤ xs.foldl max a := by
  induction xs with
  | nil => intro a z h; cases h
  | cons x xs ih =>
    intro a z h
    rcases List.mem_cons.mp h with h | h
    · subst h; exact le_foldl_max xs _ _ (le_max_right a z)
    · exact ih _ _ h

theorem le_pyMax (l : List ℚ) (z : ℚ) (h : z ∈ l) : z ≤ pyMax l := by
  cases l with
  | nil => cases h
  | cons x xs =>
    rcases List.mem_cons.mp h with h | h
    · subst h; exact le_foldl_max xs _ _ le_rfl
    · exact le_foldl_max_of_mem xs _ _ h

theorem foldl_min_le (xs : List ℚ) : ∀ a z : ℚ, a ≤ z → xs.foldl min a ≤ z := by
  induction xs with
  | nil => intro a z h; exact h
  | cons x xs ih => intro a z h; exact ih _ _ (le_trans (min_le_left a x) h)

theorem foldl_min_le_of_mem (xs : List ℚ) : ∀ a z : ℚ, z ∈ xs → xs.foldl min a ≤ z := by
  induction xs with
  | nil => intro a z h; cases h
  | cons x xs ih =>
    intro a z h
    rcases List.mem_cons.mp h with h | h
    · subst h; exact foldl_min_le xs _ _ (min_le_right a z)
    · exact ih _ _ h

theorem pyMin_le (l : List ℚ) (z : ℚ) (h : z ∈ l) : pyMin l ≤ z := by
  cases l with
  | nil => cases h
  | cons x xs =>
    rcases List.mem_cons.mp h with h | h
    · subst h; exact foldl_min_le xs _ _ le_rfl
    · exact foldl_min_le_of_mem xs _ _ h

theorem pyLast_mem (l : List ℚ) (h : l ≠ []) : pyLast l ∈ l := by
  rw [pyLast, List.getLast?_eq_getLast l h]
  exact List.getLast_mem h

theorem length_mul_le_sum (l : List ℚ) (a : ℚ) (h : ∀ x ∈ l, a ≤ x) :
    a * (l.length : ℚ) ≤ l.sum := by
  induction l with
  | nil => simp
  | cons x xs ih =>
    have hx := h x (List.mem_cons_self x xs)
    have hxs := ih fun y hy => h y (List.mem_cons_of_mem x hy)
    simp only [List.sum_cons, List.length_cons]
    push_cast
    nlinarith

theorem sum_le_length_mul (l : List ℚ) (b : ℚ) (h : ∀ x ∈ l, x ≤ b) :
    l.sum ≤ b * (l.length : ℚ) := by
  induction l with
  | nil => simp
  | cons x xs ih =>
    have hx := h x (List.mem_cons_self x xs)
    have hxs := ih fun y hy => h y (List.mem_cons_of_mem x hy)
    simp only [List.sum_cons, List.length_cons]
    push_cast
    nlinarith

theorem le_listMean (l : List ℚ) (a : ℚ) (hl : l ≠ []) (h : ∀ x ∈ l, a ≤ x) :
    a ≤ listMean l := by
  have hlen : (0 : ℚ) < (l.length : ℚ) := by
    exact_mod_cast List.length_pos.mpr hl
  rw [listMean, le_div_iff₀ hlen]
  exact length_mul_le_sum l a h

theorem listMean_le (l : List ℚ) (b : ℚ) (hl : l ≠ []) (h : ∀ x ∈ l, x ≤ b) :
    listMean l ≤ b := by
  have hlen : (0 : ℚ) < (l.length : ℚ) := by
    exact_mod_cast List.length_pos.mpr hl
  rw [listMean, div_le_iff₀ hlen]
  exact sum_le_length_mul l b h

theorem take_succ_drop_self (s : List ℚ) (i : ℕ) (h : i < s.length) :
    (s.take (i + 1)).drop i = [s.get ⟨i, h⟩] := by
  rw [List.take_succ, List.getElem?_eq_getElem h]
  have hlen : (s.take i).length = i := by rw [List.length_take]; omega
  rw [List.drop_left' hlen]
  rfl

/-- Window 1 is the identity: each slice degenerates to the single point at
the index. -/
theorem movingAverage_one (s : List ℚ) : movingAverage s 1 = s := by
  apply List.ext_getElem?
  intro i
  by_cases h : i < s.length
  · rw [movingAverage_getElem? s 1 i h, List.getElem?_eq_getElem h,
      show (1 : ℤ) = ((1 : ℕ) : ℤ) from rfl, maValue_natCast]
    by_cases hi : i < 1
    · rw [if_pos hi]
      have h0 : i = 0 := by omega
      subst h0
      rw [← List.drop_zero (s.take (0 + 1)), take_succ_drop_self s 0 h]
      simp
    · rw [if_neg hi, show i + 1 - 1 = i from by omega, take_succ_drop_self s i h]
      simp
  · push_neg at h
    rw [List.getElem?_eq_none (by rw [movingAverage_length]; omega),
      List.getElem?_eq_none (by omega)]

/-- Claim C1: for every series s with length at least w, window w ≥ 1, and
index i with w - 1 ≤ i < length s, calculate_moving_average raises nothing
and its value at index i is the arithmetic mean of the trailing w points
s[i-w+1..i]. At i = w - 1 the code takes its prefix branch (it tests
i < window, not i < window - 1), and the prefix of length w coincides with
the trailing window there. -/
theorem claim_C1_trailing_window_mean (s : List ℚ) (w i : ℕ)
    (hw : 1 ≤ w) (hws : w ≤ s.length) (hi : w - 1 ≤ i) (hilen : i < s.length) :
    calculate_moving_average s (w : ℤ) = Except.ok (movingAverage s (w : ℤ)) ∧
    (movingAverage s (w : ℤ))[i]? = some (listMean (sliceIncl s (i + 1 - w) i)) := by
  refine ⟨calculate_moving_average_eq_ok s w (by omega), ?_⟩
  have hsl : maSlice s w i = sliceIncl s (i + 1 - w) i := by
    unfold maSlice sliceIncl
    by_cases hiw : i < w
    · rw [if_pos hiw, show i + 1 - w = 0 from by omega, List.drop_zero]
    · rw [if_neg hiw]
  rw [movingAverage_getElem? s _ i hilen, maValue_eq_listMean s w i hw hilen, hsl]

theorem claim_C1_witness :
    calculate_moving_average [1, 2] ((1 : ℕ) : ℤ) =
      Except.ok (movingAverage [1, 2] ((1 : ℕ) : ℤ)) ∧
    (movingAverage [1, 2] ((1 : ℕ) : ℤ))[1]? = some (listMean (sliceIncl [1, 2] 1 1)) :=
  claim_C1_trailing_window_mean [1, 2] 1 1 (by decide) (by decide) (by decide) (by decide)

/-- Claim C2: for every non-empty series and window w ≥ 1, the value at each
index i < w - 1 is the arithmetic mean of the prefix s[0..i] (the warm-up
policy), and the value at index 0 is s[0]. -/
theorem claim_C2_prefix_warmup (s : List ℚ) (w i : ℕ)
    (hw : 1 ≤ w) (hs : s ≠ []) (hilen : i < s.length) :
    (i < w - 1 → (movingAverage s (w : ℤ))[i]? = some (listMean (sliceIncl s 0 i))) ∧
    (movingAverage s (w : ℤ))[0]? = s[0]? := by
  constructor
  · intro hi
    rw [movingAverage_getElem? s _ i hilen, maValue_eq_listMean s w i hw hilen]
    have hsl : maSlice s w i = sliceIncl s 0 i := by
      unfold maSlice sliceIncl
      rw [if_pos (by omega), List.drop_zero]
    rw [hsl]
  · cases s with
    | nil => exact absurd rfl hs
    | cons x xs =>
      have h0 : 0 < (x :: xs).length := by simp
      rw [movingAverage_getElem? _ _ 0 h0, maValue_natCast, if_pos (by omega)]
      simp

theorem claim_C2_witness :
    ((1 : ℕ) < 3 - 1 →
      (movingAverage [1, 2, 3] ((3 : ℕ) : ℤ))[1]? = some (listMean (sliceIncl [1, 2, 3] 0 1))) ∧
    (movingAverage [1, 2, 3] ((3 : ℕ) : ℤ))[0]? = ([1, 2, 3] : List ℚ)[0]? :=
  claim_C2_prefix_warmup [1, 2, 3] 3 1 (by decide) (by simp) (by decide)

/-- Claim C3: for every non-empty series and window w ≥ 1,
calculate_moving_average raises nothing and its output has the same length as
the input. -/
theorem claim_C3_length_preserved (s : List ℚ) (w : ℕ) (hw : 1 ≤ w) (hs : s ≠ []) :
    calculate_moving_average s (w : ℤ) = Except.ok (movingAverage s (w : ℤ)) ∧
    (movingAverage s (w : ℤ)).length = s.length :=
  ⟨calculate_moving_average_eq_ok s w (by omega), movingAverage_length s w⟩

theorem claim_C3_witness :
    calculate_moving_average [1] ((2 : ℕ) : ℤ) =
      Except.ok (movingAverage [1] ((2 : ℕ) : ℤ)) ∧
    (movingAverage [1] ((2 : ℕ) : ℤ)).length = ([1] : List ℚ).length :=
  claim_C3_length_preserved [1] 2 (by decide) (by simp)

/-- Claim C8: for every non-empty series, calculate_moving_average with
window 1 raises nothing and returns the series itself. -/
theorem claim_C8_window_one_identity (s : List ℚ) (hs : s ≠ []) :
    calculate_moving_average s 1 = Except.ok s := by
  rw [calculate_moving_average_eq_ok s 1 one_ne_zero, movingAverage_one]

theorem claim_C8_witness :
    calculate_moving_average [1, 2] 1 = Except.ok [1, 2] :=
  claim_C8_window_one_identity [1, 2] (by simp)

/-- Claim C9: for every non-empty series and window w ≥ 1, every element of
the moving-average output lies between the minimum and the maximum of the
input: each output value is the mean of a non-empty contiguous slice of the
input. -/
theorem claim_C9_output_within_input_range (s : List ℚ) (w : ℕ) (x : ℚ)
    (hw : 1 ≤ w) (hs : s ≠ []) (hx : x ∈ movingAverage s (w : ℤ)) :
    pyMin s ≤ x ∧ x ≤ pyMax s := by
  simp only [movingAverage] at hx
  rcases List.mem_map.mp hx with ⟨i, hi, rfl⟩
  have hilen : i < s.length := List.mem_range.mp hi
  rw [maValue_eq_listMean s w i hw hilen]
  have hne := maSlice_ne_nil s w i hw hilen
  exact ⟨le_listMean _ _ hne fun y hy => pyMin_le s y (maSlice_subset s w i y hy),
    listMean_le _ _ hne fun y hy => le_pyMax s y (maSlice_subset s w i y hy)⟩

theorem claim_C9_witness :
    pyMin [2] ≤ (2 : ℚ) ∧ (2 : ℚ) ≤ pyMax [2] :=
  claim_C9_output_within_input_range [2] 1 2 (by decide) (by simp)
    (by simp [movingAverage, maValue])

/-- Claim C10: the moving-average value at index i depends only on the prefix
of the first i + 1 input points: two inputs agreeing there (and both longer
than i) give the same value at i, for the same window. -/
theorem claim_C10_prefix_determines (s₁ s₂ : List ℚ) (w i : ℕ) (hw : 1 ≤ w)
    (h₁ : i < s₁.length) (h₂ : i < s₂.length)
    (hpre : s₁.take (i + 1) = s₂.take (i + 1)) :
    (movingAverage s₁ (w : ℤ))[i]? = (movingAverage s₂ (w : ℤ))[i]? := by
  rw [movingAverage_getElem? _ _ i h₁, movingAverage_getElem? _ _ i h₂]
  unfold maValue
  rw [hpre]

theorem claim_C10_witness :
    (movingAverage [1, 2] ((1 : ℕ) : ℤ))[0]? = (movingAverage [1, 3] ((1 : ℕ) : ℤ))[0]? :=
  claim_C10_prefix_determines [1, 2] [1, 3] 1 0 (by decide) (by decide) (by decide) (by decide)

/-- Claim C7: in the built analysis the price metrics satisfy
low ≤ current ≤ high and low ≤ average ≤ high: the current price is the last
close, low the minimum, high the maximum, average the arithmetic mean. -/
theorem claim_C7_price_metric_bounds (sym : String) (closes vols : List ℚ)
    (hc : closes ≠ []) :
    (analyzeCore sym closes vols).price_metrics.low ≤
      (analyzeCore sym closes vols).price_metrics.currentPrice ∧
    (analyzeCore sym closes vols).price_metrics.currentPrice ≤
      (analyzeCore sym closes vols).price_metrics.high ∧
    (analyzeCore sym closes vols).price_metrics.low ≤
      (analyzeCore sym closes vols).price_metrics.averagePrice ∧
    (analyzeCore sym closes vols).price_metrics.averagePrice ≤
      (analyzeCore sym closes vols).price_metrics.high := by
  refine ⟨?_, ?_, ?_, ?_⟩
  · exact pyMin_le closes _ (pyLast_mem closes hc)
  · exact le_pyMax closes _ (pyLast_mem closes hc)
  · exact le_listMean closes _ hc fun y hy => pyMin_le closes y hy
  · exact listMean_le closes _ hc fun y hy => le_pyMax closes y hy

theorem claim_C7_witness :
    (analyzeCore ("T.NS") [1, 2] [1]).price_metrics.low ≤
      (analyzeCore ("T.NS") [1, 2] [1]).price_metrics.currentPrice ∧
    (analyzeCore ("T.NS") [1, 2] [1]).price_metrics.currentPrice ≤
      (analyzeCore ("T.NS") [1, 2] [1]).price_metrics.high ∧
    (analyzeCore ("T.NS") [1, 2] [1]).price_metrics.low ≤
      (analyzeCore ("T.NS") [1, 2] [1]).price_metrics.averagePrice ∧
    (analyzeCore ("T.NS") [1, 2] [1]).price_metrics.averagePrice ≤
      (analyzeCore ("T.NS") [1, 2] [1]).price_metrics.high :=
  claim_C7_price_metric_bounds ("T.NS") [1, 2] [1] (by simp)

/-- The two-way comparison of lines 69-70: a plain greater-than test mapping
to the string Above, and everything else (including equality) to Below. -/
theorem indicator_iff (c m : ℚ) :
    ((if c > m then ("Above") else ("Below")) = ("Above") ↔ c > m) ∧
    ((if c > m then ("Above") else ("Below")) = ("Below") ↔ ¬c > m) := by
  by_cases h : c > m
  · simp [h]
  · simp [h]

/-- Claim C4 (amended): the indicators classify the last close against the
last moving-average value as Above exactly when strictly greater and as Below
exactly otherwise; equality yields Below, and no Equal outcome exists. -/
theorem claim_C4_indicator_classification (sym : String) (closes vols : List ℚ)
    (hc : closes ≠ []) :
    ((analyzeCore sym closes vols).technical_indicators.currentVs50MA = ("Above") ↔
      (analyzeCore sym closes vols).price_metrics.currentPrice >
        (analyzeCore sym closes vols).technical_indicators.ma50Value) ∧
    ((analyzeCore sym closes vols).technical_indicators.currentVs50MA = ("Below") ↔
      ¬(analyzeCore sym closes vols).price_metrics.currentPrice >
        (analyzeCore sym closes vols).technical_indicators.ma50Value) ∧
    ((analyzeCore sym closes vols).technical_indicators.currentVs200MA = ("Above") ↔
      (analyzeCore sym closes vols).price_metrics.currentPrice >
        (analyzeCore sym closes vols).technical_indicators.ma200Value) ∧
    ((analyzeCore sym closes vols).technical_indicators.currentVs200MA = ("Below") ↔
      ¬(analyzeCore sym closes vols).price_metrics.currentPrice >
        (analyzeCore sym closes vols).technical_indicators.ma200Value) :=
  ⟨(indicator_iff _ _).1, (indicator_iff _ _).2,
    (indicator_iff _ _).1, (indicator_iff _ _).2⟩

theorem claim_C4_witness :
    ((analyzeCore ("R.NS") [1, 2] [1]).technical_indicators.currentVs50MA = ("Above") ↔
      (analyzeCore ("R.NS") [1, 2] [1]).price_metrics.currentPrice >
        (analyzeCore ("R.NS") [1, 2] [1]).technical_indicators.ma50Value) ∧
    ((analyzeCore ("R.NS") [1, 2] [1]).technical_indicators.currentVs50MA = ("Below") ↔
      ¬(analyzeCore ("R.NS") [1, 2] [1]).price_metrics.currentPrice >
        (analyzeCore ("R.NS") [1, 2] [1]).technical_indicators.ma50Value) ∧
    ((analyzeCore ("R.NS") [1, 2] [1]).technical_indicators.currentVs200MA = ("Above") ↔
      (analyzeCore ("R.NS") [1, 2] [1]).price_metrics.currentPrice >
        (analyzeCore ("R.NS") [1, 2] [1]).technical_indicators.ma200Value) ∧
    ((analyzeCore ("R.NS") [1, 2] [1]).technical_indicators.currentVs200MA = ("Below") ↔
      ¬(analyzeCore ("R.NS") [1, 2] [1]).price_metrics.currentPrice >
        (analyzeCore ("R.NS") [1, 2] [1]).technical_indicators.ma200Value) :=
  claim_C4_indicator_classification ("R.NS") [1, 2] [1] (by simp)

/-- Claim C4 counterexample: a single close of 100 makes the last close equal
to both moving-average values, yet both indicators read Below. The claimed
Equal classification does not exist in the code: equality is classified
Below. -/
theorem claim_C4_counterexample :
    (analyzeCore ("R.NS") [100] [1]).price_metrics.currentPrice =
      (analyzeCore ("R.NS") [100] [1]).technical_indicators.ma50Value ∧
    (analyzeCore ("R.NS") [100] [1]).technical_indicators.currentVs50MA = ("Below") ∧
    (analyzeCore ("R.NS") [100] [1]).technical_indicators.currentVs200MA = ("Below") := by
  have hma : ∀ w : ℤ, 0 < w → pyLast (movingAverage [(100 : ℚ)] w) = 100 := by
    intro w hw
    show pyLast ((List.range 1).map (maValue [(100 : ℚ)] w)) = 100
    rw [show List.range 1 = [0] from rfl, List.map_cons, List.map_nil]
    unfold maValue
    rw [if_pos (show ((0 : ℕ) : ℤ) < w by exact_mod_cast hw)]
    simp [pyLast]
  have h50 := hma 50 (by omega)
  have h200 := hma 200 (by omega)
  have hlast : pyLast [(100 : ℚ)] = 100 := rfl
  have hng50 : ¬pyLast [(100 : ℚ)] > pyLast (movingAverage [(100 : ℚ)] 50) := by
    rw [hlast, h50]; exact lt_irrefl 100
  have hng200 : ¬pyLast [(100 : ℚ)] > pyLast (movingAverage [(100 : ℚ)] 200) := by
    rw [hlast, h200]; exact lt_irrefl 100
  refine ⟨?_, ?_, ?_⟩
  · show pyLast [(100 : ℚ)] = pyLast (movingAverage [(100 : ℚ)] 50)
    rw [hlast, h50]
  · show (if pyLast [(100 : ℚ)] > pyLast (movingAverage [(100 : ℚ)] 50)
        then ("Above") else ("Below")) = ("Below")
    rw [if_neg hng50]
  · show (if pyLast [(100 : ℚ)] > pyLast (movingAverage [(100 : ℚ)] 200)
        then ("Above") else ("Below")) = ("Below")
    rw [if_neg hng200]

theorem cma_nil (w : ℤ) : calculate_moving_average [] w = Except.ok [] := rfl

/-- With window 0 and a non-empty series, the first iteration's else-branch
divides by zero and the loop aborts with that error. -/
theorem cma_zero_window_cons (x : ℚ) (xs : List ℚ) :
    calculate_moving_average (x :: xs) 0 = Except.error PyError.zeroDivisionError := by
  show mapExcept (maEntry (x :: xs) 0) (List.range (xs.length + 1)) = _
  rw [List.range_succ_eq_map]
  have hf : maEntry (x :: xs) 0 0 = Except.error PyError.zeroDivisionError := by
    unfold maEntry
    rw [if_neg (by omega), if_pos rfl]
  simp [mapExcept, hf]

/-- Claim C5 (amended): calculate_moving_average performs no input
validation. On the empty series it returns the empty list for every window;
on a non-empty series it raises ZeroDivisionError exactly when window = 0;
for every window ≠ 0 (negative windows included, and in particular every
window ≥ 1 on a non-empty series) it returns a list without raising. -/
theorem claim_C5_no_validation (data : List ℚ) (w : ℤ) :
    (data = [] → calculate_moving_average data w = Except.ok []) ∧
    (data ≠ [] →
      (calculate_moving_average data w = Except.error PyError.zeroDivisionError ↔ w = 0)) ∧
    (w ≠ 0 → calculate_moving_average data w = Except.ok (movingAverage data w)) := by
  refine ⟨?_, ?_, fun hw => calculate_moving_average_eq_ok data w hw⟩
  · rintro rfl
    rfl
  · intro hd
    constructor
    · intro herr
      by_contra hw
      rw [calculate_moving_average_eq_ok data w hw] at herr
      exact Except.noConfusion herr
    · rintro rfl
      cases data with
      | nil => exact absurd rfl hd
      | cons x xs => exact cma_zero_window_cons x xs

theorem claim_C5_witness :
    calculate_moving_average ([] : List ℚ) 7 = Except.ok [] ∧
    calculate_moving_average [2] 0 = Except.error PyError.zeroDivisionError ∧
    calculate_moving_average [2] 3 = Except.ok (movingAverage [2] 3) :=
  ⟨(claim_C5_no_validation [] 7).1 rfl,
    ((claim_C5_no_validation [2] 0).2.1 (by simp)).mpr rfl,
    (claim_C5_no_validation [2] 3).2.2 (by decide)⟩

/-- Claim C5 counterexample: contrary to the claimed InvalidWindow and
EmptySeries failures, the function succeeds on an empty series, succeeds on a
negative window (returning a zero from an empty slice), and the only failure
it can raise — window 0 on a non-empty series — is a ZeroDivisionError, not a
typed InvalidWindow. -/
theorem claim_C5_counterexample :
    calculate_moving_average [] 1 = Except.ok [] ∧
    calculate_moving_average [5] (-1) = Except.ok [0] ∧
    calculate_moving_average [5] 0 = Except.error PyError.zeroDivisionError := by
  refine ⟨cma_nil 1, ?_, cma_zero_window_cons 5 []⟩
  rw [calculate_moving_average_eq_ok [5] (-1) (by decide)]
  show Except.ok [maValue [5] (-1) 0] = _
  unfold maValue
  rw [if_neg (by decide)]
  norm_num [show Int.toNat 2 = 2 from rfl]

/-- Claim C6 (amended): the built analysis computes priceRangePct as
(max(closes) - min(closes)) / min(closes) * 100 with low = min(closes) and
high = max(closes), with no zero check; whenever min(closes) ≠ 0 the value
agrees with the spec's rangePercent. (At min(closes) = 0 the code does not
fail: see the counterexample.) -/
theorem claim_C6_range_percent (sym : String) (closes vols : List ℚ)
    (hc : closes ≠ []) (hlow : pyMin closes ≠ 0) :
    (analyzeCore sym closes vols).price_metrics.low = pyMin closes ∧
    (analyzeCore sym closes vols).price_metrics.high = pyMax closes ∧
    (analyzeCore sym closes vols).price_metrics.priceRangePct =
      (pyMax closes - pyMin closes) / pyMin closes * 100 ∧
    rangePercentSpec (pyMin closes) (pyMax closes) =
      Except.ok ((analyzeCore sym closes vols).price_metrics.priceRangePct) := by
  refine ⟨rfl, rfl, rfl, ?_⟩
  unfold rangePercentSpec
  rw [if_neg hlow]
  rfl

theorem claim_C6_witness :
    (analyzeCore ("A.NS") [1] [1]).price_metrics.low = pyMin [1] ∧
    (analyzeCore ("A.NS") [1] [1]).price_metrics.high = pyMax [1] ∧
    (analyzeCore ("A.NS") [1] [1]).price_metrics.priceRangePct =
      (pyMax [1] - pyMin [1]) / pyMin [1] * 100 ∧
    rangePercentSpec (pyMin [1]) (pyMax [1]) =
      Except.ok ((analyzeCore ("A.NS") [1] [1]).price_metrics.priceRangePct) :=
  claim_C6_range_percent ("A.NS") [1] [1] (by simp) (by simp [pyMin])

/-- Claim C6 counterexample: with closes [0, 10] the minimum is 0, the
spec-modelled rangePercent fails with DivisionByZero, yet the analysis is
still built with a priceRangePct value — the code has no DivisionByZero
failure path (in the rational model the division by zero yields 0; the
Python code divides numpy floats, which also raises nothing). -/
theorem claim_C6_counterexample :
    pyMin [0, 10] = 0 ∧
    rangePercentSpec (pyMin [0, 10]) (pyMax [0, 10]) =
      Except.error SpecError.divisionByZero ∧
    (analyzeCore ("X.NS") [0, 10] [1]).price_metrics.priceRangePct = 0 := by
  have hmin : pyMin [(0 : ℚ), 10] = 0 := by simp [pyMin]
  refine ⟨hmin, ?_, ?_⟩
  · rw [hmin]
    unfold rangePercentSpec
    rw [if_pos rfl]
  · show (pyMax [(0 : ℚ), 10] - pyMin [0, 10]) / pyMin [0, 10] * 100 = 0
    rw [hmin]
    simp

end StockAnalysis
